import Mathlib

/-!
Verification of the SudokuApp session controller (`src/web.rs`).

The file shallowly embeds the session state machine of `web.rs` and the
view-model derivations (`view_board_square`, `view_number`) in Lean.  The
puzzle engine (the `sudoku` crate: `Sudoku`, `Board`, `Square`, `Number`) is
an external collaborator whose source is not part of this repository's
`src/`; those pieces are modelled from the specification's engine contract
and are marked as such in their doc comments.

Time is made explicit: the Rust code reads `Instant::now()` inside `update`;
here `update` receives the current instant `t : Nat` as a parameter, and
`Instant::elapsed` becomes truncated subtraction (Rust `Duration` is
non-negative and `elapsed` saturates at zero).  The `unwrap` inside
`Model::solution_at` is modelled by `update` returning `Option Model`,
where `none` stands for a panic.
-/

namespace SudokuApp

/-- A square of the 9x9 grid, identified by (column, row), both in `[0,9)`.
Mirrors `Square::from_col_row` of the grid geometry. -/
structure Square where
  col : Fin 9
  row : Fin 9
deriving DecidableEq

/-- Modelled from the spec: block index of a square is `(row/3)*3 + (col/3)`
(spec section 3, Data Model). -/
def Square.block (sq : Square) : Nat :=
  sq.row.val / 3 * 3 + sq.col.val / 3

/-- All 81 squares, as iterated by `Square::all()`. -/
def Square.all : List Square :=
  (List.finRange 9).flatMap fun r => (List.finRange 9).map fun c => ⟨c, r⟩

/-- A digit; `Fin 9` is the digit's index, i.e. value `get = index + 1`
ranging over `[1,9]`. -/
abbrev Number := Fin 9

/-- All nine digits, as iterated by `Number::all()`. -/
def Number.all : List Number := List.finRange 9

/-- Modelled from the spec: a board maps every square to an optional digit
(spec section 3: "a mapping from every Cell to an optional Digit"). -/
def Board := Square → Option Number

/-- Modelled from the spec: the empty board (`Board::empty()`), every square
unset. -/
def Board.empty : Board := fun _ => none

/-- Two squares are peers when they share a column, a row or a 3x3 block;
this is the relation of the sudoku placement rules and of the neighbor
highlight in `view_board_square`. -/
def Square.peerB (a b : Square) : Bool :=
  a.col == b.col || a.row == b.row || a.block == b.block

/-- Modelled from the spec: the puzzle engine instance; it owns the current
working board, exposed read-only by `Puzzle.board()` (spec section 6). -/
structure Sudoku where
  board : Board

/-- Modelled from the spec: `Puzzle.put(cell, digit) -> bool` places the
digit iff it "may legally occupy cell per placement rules", i.e. no other
peer square already holds that digit; on success the working board is
updated and `true` is returned, otherwise the board is unchanged and
`false` is returned (spec section 6). -/
def Sudoku.put (s : Sudoku) (sq : Square) (num : Number) : Bool × Sudoku :=
  if Square.all.any fun sq2 => sq2 != sq && Square.peerB sq2 sq && s.board sq2 == some num then
    (false, s)
  else
    (true, ⟨Function.update s.board sq (some num)⟩)

/-- Modelled from the spec: `Puzzle.isSolved() -> bool` is "true iff working
board fully matches a complete, valid solution" (spec section 6): every
square is filled and no two distinct peer squares hold the same digit. -/
def Sudoku.is_solved (s : Sudoku) : Bool :=
  (Square.all.all fun sq => (s.board sq).isSome) &&
    Square.all.all fun a =>
      Square.all.all fun b =>
        !(a != b && Square.peerB a b && (s.board a).isSome && s.board a == s.board b)

/-- The session lifecycle (`enum State` of `web.rs`): `Startup` before the
first reset, `Playing` with the instant play began, `Completed` with the
frozen duration. -/
inductive State where
  | startup
  | playing (now : Nat)
  | completed (dur : Nat)
deriving DecidableEq

/-- The session model (`struct Model` of `web.rs`). -/
structure Model where
  sudoku : Sudoku
  solution : Board
  sq_selected : Option Square
  sq_missed : Option Square
  miss_count : Nat
  state : State

/-- `Model::default()`: empty working board, empty solution, nothing
selected or missed, zero misses, `Startup` state. -/
def Model.mkDefault : Model :=
  { sudoku := ⟨Board.empty⟩
    solution := Board.empty
    sq_selected := none
    sq_missed := none
    miss_count := 0
    state := .startup }

/-- `Model::solution_at` before its `unwrap`: the optional solution digit at
a square.  The `unwrap` itself is modelled at the use site in `update`,
where a `none` result is a panic. -/
def Model.solution_at (m : Model) (sq : Square) : Option Number :=
  m.solution sq

/-- The events (`enum Msg` of `web.rs`). -/
inductive Msg where
  | timerTick
  | reset
  | selectSquare (sq : Square)
  | putNumber (sq : Square) (num : Number)
deriving DecidableEq

/-- Modelled from the spec: the environment supplying
`Sudoku::generate_unique(givens)`, which returns a fresh puzzle together
with a solved `Sudoku` carrying its unique solution (spec section 6). -/
structure Env where
  generate_unique : Nat → Sudoku × Sudoku

/-- The event handler `update` of `web.rs`, with the current instant `t`
passed explicitly and a panic (the `unwrap` in `Model::solution_at`)
modelled as `none`.  The `log!` on a failed `put` has no state effect and
is dropped; the state mutation is otherwise line-for-line. -/
def update (env : Env) (t : Nat) (msg : Msg) (m : Model) : Option Model :=
  match msg with
  | .timerTick => some m
  | .reset =>
      let gen := env.generate_unique 35
      some
        { sudoku := gen.1
          solution := gen.2.board
          sq_selected := none
          sq_missed := none
          miss_count := 0
          state := .playing t }
  | .selectSquare sq => some { m with sq_selected := some sq }
  | .putNumber sq num =>
      match m.solution_at sq with
      | none => none
      | some sol =>
          if num ≠ sol then
            some { m with sq_missed := some sq, miss_count := m.miss_count + 1 }
          else
            if ((m.sudoku.put sq num).2).is_solved then
              match m.state with
              | .playing now =>
                  some { m with
                          sudoku := (m.sudoku.put sq num).2
                          sq_missed := none
                          state := .completed (t - now) }
              | _ => some { m with sudoku := (m.sudoku.put sq num).2, sq_missed := none }
            else
              some { m with sudoku := (m.sudoku.put sq num).2, sq_missed := none }

/-! View-model derivations of `view_board_square` and `view_number`. -/

/-- The `is_selected` flag of `view_board_square`. -/
def is_selected (m : Model) (col row : Fin 9) : Bool :=
  m.sq_selected == some ⟨col, row⟩

/-- The `is_neighbor` flag of `view_board_square`: not selected, and the
selected square (when any) shares the column, row or block. -/
def is_neighbor (m : Model) (col row : Fin 9) : Bool :=
  !is_selected m col row &&
    match m.sq_selected with
    | none => false
    | some sq_sel => col == sq_sel.col || row == sq_sel.row || Square.block ⟨col, row⟩ == sq_sel.block

/-- The `is_selected_number` flag of `view_board_square`: the square's digit
is filled and equals the digit of the selected square. -/
def is_selected_number (m : Model) (col row : Fin 9) : Bool :=
  match m.sq_selected with
  | none => false
  | some sq_sel =>
      (m.sudoku.board ⟨col, row⟩).isSome && m.sudoku.board ⟨col, row⟩ == m.sudoku.board sq_sel

/-- The `is_completed` flag of `view_number`: the count of squares holding
the digit on the working board equals 9. -/
def is_completed (m : Model) (num : Number) : Bool :=
  (Square.all.filter fun sq => m.sudoku.board sq == some num).length == 9

/-! Invariants relating the working board to the session's solution board.
These hold of every session produced by a `Reset` whose engine call met the
engine contract (the generated solution board is fully filled and obeys the
placement rules, and the puzzle's givens are taken from that solution). -/

/-- A board with every square filled. -/
def Board.Complete (b : Board) : Prop :=
  ∀ sq, (b sq).isSome

/-- A board obeying the placement rules: no two distinct peer squares hold
the same digit. -/
def Board.Valid (b : Board) : Prop :=
  ∀ a b' : Square, a ≠ b' → Square.peerB a b' = true → ∀ n : Number, b a = some n → b b' ≠ some n

/-- The working board agrees with the solution wherever it is filled. -/
def Board.Agrees (w sol : Board) : Prop :=
  ∀ sq n, w sq = some n → sol sq = some n

/-! Basic facts about `Square.all`. -/

theorem Square.mem_all (sq : Square) : sq ∈ Square.all := by
  rcases sq with ⟨c, r⟩
  simp only [Square.all, List.mem_flatMap, List.mem_map]
  exact ⟨r, List.mem_finRange r, c, List.mem_finRange c, rfl⟩

theorem Square.nodup_all : Square.all.Nodup := by
  have h : Square.all = (List.finRange 9 ×ˢ List.finRange 9).map fun p => ⟨p.2, p.1⟩ := by
    simp only [Square.all, List.product, List.map_flatMap, List.map_map]
    rfl
  rw [h]
  refine List.Nodup.map ?_ ((List.nodup_finRange 9).product (List.nodup_finRange 9))
  intro p q hpq
  rcases p with ⟨pr, pc⟩
  rcases q with ⟨qr, qc⟩
  simp only [Square.mk.injEq] at hpq
  rw [Prod.ext_iff]
  exact ⟨hpq.2, hpq.1⟩

instance : Fintype Square :=
  ⟨⟨Square.all, Square.nodup_all⟩, Square.mem_all⟩

instance : DecidablePred Board.Complete := fun b =>
  inferInstanceAs (Decidable (∀ sq, (b sq).isSome))

instance : DecidablePred Board.Valid := fun b =>
  inferInstanceAs (Decidable (∀ a b', a ≠ b' → _ = true → ∀ n, b a = some n → b b' ≠ some n))

instance (w : Board) : Decidable (Board.Agrees w sol) :=
  inferInstanceAs (Decidable (∀ sq n, w sq = some n → sol sq = some n))

/-! Engine lemmas used by the session-machine proofs. -/

/-- Placing the digit prescribed by a valid solution on a working board that
agrees with that solution always succeeds: no peer square can already hold
the digit, since the solution itself has no peer conflicts. -/
theorem Sudoku.put_success {sol : Board} (s : Sudoku) (hval : sol.Valid)
    (hagr : Board.Agrees s.board sol)
    {sq : Square} {num : Number} (hsol : sol sq = some num) :
    s.put sq num = (true, ⟨Function.update s.board sq (some num)⟩) := by
  unfold Sudoku.put
  rw [if_neg]
  intro hany
  rw [List.any_eq_true] at hany
  obtain ⟨sq2, -, h⟩ := hany
  simp only [Bool.and_eq_true, bne_iff_ne, beq_iff_eq] at h
  obtain ⟨⟨hne, hpeer⟩, hb⟩ := h
  exact hval sq2 sq hne hpeer num (hagr sq2 num hb) hsol

/-- Re-placing the digit a square already holds leaves the working board
unchanged, whether the engine accepts the placement or rejects it. -/
theorem Sudoku.put_board_of_eq (s : Sudoku) (sq : Square) (num : Number)
    (hsq : s.board sq = some num) : ((s.put sq num).2).board = s.board := by
  unfold Sudoku.put
  split
  · rfl
  · show Function.update s.board sq (some num) = s.board
    rw [← hsq]
    exact Function.update_eq_self sq s.board

/-- A complete board with no peer conflicts is reported solved. -/
theorem Sudoku.is_solved_of (s : Sudoku) (hcomp : s.board.Complete) (hval : s.board.Valid) :
    s.is_solved = true := by
  unfold Sudoku.is_solved
  rw [Bool.and_eq_true]
  refine ⟨List.all_eq_true.mpr fun sq _ => hcomp sq, List.all_eq_true.mpr fun a _ => ?_⟩
  refine List.all_eq_true.mpr fun b _ => ?_
  rw [Bool.not_eq_true']
  by_cases hab : a = b
  · simp [hab]
  · by_cases hpeer : Square.peerB a b = true
    · obtain ⟨n, hn⟩ := Option.isSome_iff_exists.mp (hcomp a)
      have hb := hval a b hab hpeer n hn
      simp only [Bool.and_eq_false_iff]
      right
      rw [beq_eq_false_iff_ne]
      intro heq
      exact hb (heq ▸ hn)
    · simp [hpeer]

/-! Concrete fixtures used by the witnesses: a fully-filled conflict-free
solution board, an environment for `generate_unique`, and sample session
models. -/

/-- A concrete complete, conflict-free board: the digit index at (col, row)
is `(col + 3*(row % 3) + row / 3) % 9`. -/
def solGrid : Board := fun sq =>
  some ⟨(sq.col.val + 3 * (sq.row.val % 3) + sq.row.val / 3) % 9, by omega⟩

/-- A trivial environment whose generator returns empty boards. -/
def env0 : Env := ⟨fun _ => (⟨Board.empty⟩, ⟨Board.empty⟩)⟩

/-- A sample mid-play session: empty working board, `solGrid` as solution. -/
def mPlay : Model :=
  { sudoku := ⟨Board.empty⟩
    solution := solGrid
    sq_selected := none
    sq_missed := none
    miss_count := 0
    state := .playing 0 }

/-- A sample session one correct placement away from completion: every
square except (0,0) is already filled as in `solGrid`. -/
def mAlmost : Model :=
  { sudoku := ⟨Function.update solGrid ⟨0, 0⟩ none⟩
    solution := solGrid
    sq_selected := none
    sq_missed := none
    miss_count := 2
    state := .playing 2 }

/-- A sample completed session: working board equal to the solution. -/
def mDone : Model :=
  { sudoku := ⟨solGrid⟩
    solution := solGrid
    sq_selected := some ⟨4, 4⟩
    sq_missed := none
    miss_count := 3
    state := .completed 7 }

set_option maxRecDepth 10000

/-- The fixture solution board has no peer conflicts. -/
theorem solGrid_valid : Board.Valid solGrid := by decide

/-- The fixture solution board is fully filled. -/
theorem solGrid_complete : Board.Complete solGrid := by decide

/-- The empty working board trivially agrees with the fixture solution. -/
theorem empty_agrees_solGrid : Board.Agrees Board.empty solGrid := by decide

/-- The all-but-one working board of `mAlmost` agrees with the fixture
solution. -/
theorem mAlmost_agrees : Board.Agrees mAlmost.sudoku.board mAlmost.solution := by decide

/-! Claim theorems. -/

/-- C1: for every session state and every square `sq` and digit `num` that
differs from the solution digit at `sq`, `PutNumber` sets the miss marker
to `sq`, increments the miss count by exactly 1, and leaves the working
board, the solution board, the selection and the session phase unchanged:
it is a terminal outcome of the event. -/
theorem putNumber_wrong_digit_marks_miss (env : Env) (t : Nat) (m : Model) (sq : Square)
    (num sol : Number) (hsol : m.solution sq = some sol) (hne : num ≠ sol) :
    ∃ m', update env t (.putNumber sq num) m = some m' ∧
      m'.sq_missed = some sq ∧
      m'.miss_count = m.miss_count + 1 ∧
      m'.sudoku = m.sudoku ∧
      m'.state = m.state ∧
      m'.sq_selected = m.sq_selected ∧
      m'.solution = m.solution := by
  refine ⟨{ m with sq_missed := some sq, miss_count := m.miss_count + 1 },
    ?_, rfl, rfl, rfl, rfl, rfl, rfl⟩
  simp only [update, Model.solution_at, hsol]
  rw [if_pos hne]

/-- Witness for C1 on a concrete mid-play session: digit index 1 is wrong
at square (0,0), whose solution digit index is 0. -/
theorem putNumber_wrong_digit_marks_miss_witness :
    ∃ m', update env0 3 (.putNumber ⟨0, 0⟩ 1) mPlay = some m' ∧
      m'.sq_missed = some ⟨0, 0⟩ ∧
      m'.miss_count = mPlay.miss_count + 1 ∧
      m'.sudoku = mPlay.sudoku ∧
      m'.state = mPlay.state ∧
      m'.sq_selected = mPlay.sq_selected ∧
      m'.solution = mPlay.solution :=
  putNumber_wrong_digit_marks_miss env0 3 mPlay ⟨0, 0⟩ 1 0 (by decide) (by decide)

/-- C4: a `Reset` from any state yields a Playing session with miss count
0, no selection, no miss marker, and the puzzle and solution board freshly
produced by the engine call `generate_unique 35` (35 pre-filled givens). -/
theorem reset_yields_fresh_playing (env : Env) (t : Nat) (m : Model) :
    ∃ m', update env t .reset m = some m' ∧
      m'.state = .playing t ∧
      m'.miss_count = 0 ∧
      m'.sq_selected = none ∧
      m'.sq_missed = none ∧
      m'.sudoku = (env.generate_unique 35).1 ∧
      m'.solution = ((env.generate_unique 35).2).board :=
  ⟨_, rfl, rfl, rfl, rfl, rfl, rfl, rfl⟩

/-- C9: `SelectSquare` is valid in every state, sets the selection to the
square, changes nothing else, and is idempotent: processing it twice in a
row yields the same state as processing it once. -/
theorem selectSquare_sets_selection_idempotent (env : Env) (t : Nat) (m : Model) (sq : Square) :
    ∃ m', update env t (.selectSquare sq) m = some m' ∧
      m'.sq_selected = some sq ∧
      m'.sq_missed = m.sq_missed ∧
      m'.miss_count = m.miss_count ∧
      m'.sudoku = m.sudoku ∧
      m'.state = m.state ∧
      m'.solution = m.solution ∧
      update env t (.selectSquare sq) m' = some m' :=
  ⟨_, rfl, rfl, rfl, rfl, rfl, rfl, rfl, rfl⟩

/-- C6: the miss count never decreases on any event other than `Reset`,
and a `Reset` sets it to exactly zero. -/
theorem miss_count_monotone (env : Env) (t : Nat) (m : Model) (msg : Msg) (m' : Model)
    (hup : update env t msg m = some m') :
    (msg ≠ .reset → m.miss_count ≤ m'.miss_count) ∧
      (msg = .reset → m'.miss_count = 0) := by
  constructor
  · intro hne
    cases msg with
    | timerTick =>
        cases hup
        exact le_refl _
    | reset =>
        exact absurd rfl hne
    | selectSquare sq =>
        cases hup
        exact le_refl _
    | putNumber sq num =>
        simp only [update, Model.solution_at] at hup
        split at hup
        · exact absurd hup (by simp)
        · split at hup
          · cases hup
            exact Nat.le_succ _
          · split at hup
            · split at hup <;> (cases hup; exact le_refl _)
            · cases hup
              exact le_refl _
  · intro h
    subst h
    simp only [update, Option.some.injEq] at hup
    subst hup
    rfl

/-- Witness for C6 on a concrete session and a wrong placement. -/
theorem miss_count_monotone_witness :
    (Msg.putNumber ⟨0, 0⟩ 1 ≠ .reset → mPlay.miss_count ≤ Nat.succ 0) ∧
      (Msg.putNumber ⟨0, 0⟩ 1 = .reset → Nat.succ 0 = 0) :=
  miss_count_monotone env0 3 mPlay (.putNumber ⟨0, 0⟩ 1)
    { mPlay with sq_missed := some ⟨0, 0⟩, miss_count := 1 } rfl

/-- C10: the solution lookup inside `PutNumber` is an unconditional
`unwrap`: whenever the solution board is filled at the square the event
returns normally, while on the startup default model (empty solution board,
before the first `Reset`) the same event panics (modelled as `none`). -/
theorem putNumber_unwrap_panics_on_startup (env : Env) (t : Nat) (sq : Square) (num : Number)
    (m : Model) :
    ((m.solution sq).isSome → (update env t (.putNumber sq num) m).isSome) ∧
      update env t (.putNumber sq num) Model.mkDefault = none := by
  constructor
  · intro h
    obtain ⟨sol, hsol⟩ := Option.isSome_iff_exists.mp h
    simp only [update, Model.solution_at, hsol]
    split
    · rfl
    · split
      · split <;> rfl
      · rfl
  · rfl

/-- Witness for C10: on the completed fixture session the solution is
filled at (0,0), so the event returns normally. -/
theorem putNumber_unwrap_panics_on_startup_witness :
    ((mDone.solution ⟨0, 0⟩).isSome → (update env0 0 (.putNumber ⟨0, 0⟩ 0) mDone).isSome) ∧
      update env0 0 (.putNumber ⟨0, 0⟩ 0) Model.mkDefault = none :=
  putNumber_unwrap_panics_on_startup env0 0 ⟨0, 0⟩ 0 mDone

/-- C2: for a Playing session whose working board agrees with its
conflict-free solution, `PutNumber` with the correct digit places it: the
working board afterwards holds the digit at the square and the miss marker
is not that square (it is cleared). -/
theorem putNumber_correct_digit_places (env : Env) (t : Nat) (m : Model) (sq : Square)
    (num : Number) (s : Nat)
    (hplay : m.state = State.playing s)
    (hval : m.solution.Valid)
    (hagr : Board.Agrees m.sudoku.board m.solution)
    (hsol : m.solution sq = some num) :
    ∃ m', update env t (.putNumber sq num) m = some m' ∧
      m'.sudoku.board sq = some num ∧ m'.sq_missed = none ∧ m'.sq_missed ≠ some sq := by
  have hput := Sudoku.put_success m.sudoku hval hagr hsol
  simp only [update, Model.solution_at, hsol]
  rw [if_neg (fun h => h rfl), hput]
  split
  · rw [hplay]
    exact ⟨_, rfl, Function.update_same sq (some num) m.sudoku.board, rfl, by simp⟩
  · exact ⟨_, rfl, Function.update_same sq (some num) m.sudoku.board, rfl, by simp⟩

/-- Witness for C2 on a concrete mid-play session: placing the correct
digit index 0 at square (0,0). -/
theorem putNumber_correct_digit_places_witness :
    ∃ m', update env0 3 (.putNumber ⟨0, 0⟩ 0) mPlay = some m' ∧
      m'.sudoku.board ⟨0, 0⟩ = some 0 ∧ m'.sq_missed = none ∧ m'.sq_missed ≠ some ⟨0, 0⟩ :=
  putNumber_correct_digit_places env0 3 mPlay ⟨0, 0⟩ 0 0 rfl solGrid_valid
    empty_agrees_solGrid (by decide)

/-- C3: when a Playing session places the last correct digit (every other
square of the working board already matches the complete, conflict-free
solution), the session transitions to Completed with the non-negative
frozen duration `t - s`; moreover from any Completed session every event
other than `Reset` leaves the phase (and its frozen duration) unchanged,
so the session never re-enters Playing until a `Reset`. -/
theorem completion_transitions_once (env : Env) (t : Nat) (m : Model) (sq : Square)
    (num : Number) (s : Nat)
    (hplay : m.state = State.playing s)
    (hval : m.solution.Valid)
    (hcomp : m.solution.Complete)
    (hagr : Board.Agrees m.sudoku.board m.solution)
    (hsol : m.solution sq = some num)
    (hfull : ∀ sq2, sq2 ≠ sq → m.sudoku.board sq2 = m.solution sq2) :
    (∃ m', update env t (.putNumber sq num) m = some m' ∧
        m'.state = .completed (t - s) ∧ 0 ≤ t - s) ∧
      (∀ (m2 m3 : Model) (d : Nat) (msg : Msg), m2.state = .completed d → msg ≠ .reset →
        update env t msg m2 = some m3 → m3.state = .completed d) := by
  constructor
  · have hput := Sudoku.put_success m.sudoku hval hagr hsol
    have hbd : Function.update m.sudoku.board sq (some num) = m.solution := by
      funext sq2
      by_cases h : sq2 = sq
      · subst h
        rw [Function.update_same]
        exact hsol.symm
      · rw [Function.update_noteq h]
        exact hfull sq2 h
    have hsolved : (Sudoku.mk (Function.update m.sudoku.board sq (some num))).is_solved = true := by
      rw [hbd]
      exact Sudoku.is_solved_of ⟨m.solution⟩ hcomp hval
    simp only [update, Model.solution_at, hsol]
    rw [if_neg (fun h => h rfl), hput]
    split
    · rw [hplay]
      exact ⟨_, rfl, rfl, Nat.zero_le _⟩
    · next hns => exact absurd hsolved hns
  · intro m2 m3 d msg h2 hmsg hup
    cases msg with
    | timerTick =>
        cases hup
        exact h2
    | reset => exact absurd rfl hmsg
    | selectSquare sq2 =>
        cases hup
        exact h2
    | putNumber sq2 num2 =>
        simp only [update, Model.solution_at, h2] at hup
        split at hup
        · cases hup
        · split at hup
          · cases hup
            rfl
          · split at hup
            · cases hup
              rfl
            · cases hup
              rfl

/-- Witness for C3: the fixture session one correct placement away from
completion transitions to `Completed (5 - 2)` at instant 5, and a `Tick`
on the completed fixture session leaves it completed. -/
theorem completion_transitions_once_witness :
    (∃ m', update env0 5 (.putNumber ⟨0, 0⟩ 0) mAlmost = some m' ∧
        m'.state = .completed (5 - 2) ∧ 0 ≤ 5 - 2) ∧
      mDone.state = .completed 7 := by
  have h := completion_transitions_once env0 5 mAlmost ⟨0, 0⟩ 0 2 rfl solGrid_valid
    solGrid_complete mAlmost_agrees (by decide) (by decide)
  exact ⟨h.1, h.2 mDone mDone 7 .timerTick rfl (by decide) rfl⟩

/-- Every board agrees with itself. -/
theorem Board.agrees_refl (b : Board) : Board.Agrees b b := fun _ _ h => h

/-- C5 counterexample: on the completed fixture session (working board
fully filled), `PutNumber` with a wrong digit at (0,0) changes both the
miss marker and the miss count, so the event is not a no-op as claimed. -/
theorem putNumber_on_completed_not_noop :
    ∃ m', update env0 0 (.putNumber ⟨0, 0⟩ 1) mDone = some m' ∧
      m'.miss_count ≠ mDone.miss_count ∧ m'.sq_missed ≠ mDone.sq_missed := by
  refine ⟨_, rfl, ?_, ?_⟩ <;> decide

/-- C5 amended: on a Completed session whose filled working board agrees
with its conflict-free solution, `PutNumber` leaves the working board, the
session phase, the selection and the solution unchanged, but the miss
fields still follow the normal placement rules: a wrong digit sets the
miss marker and increments the miss count, a correct digit clears the
miss marker and leaves the count unchanged. -/
theorem putNumber_on_completed_frame (env : Env) (t : Nat) (m : Model) (sq : Square)
    (num sol : Number) (d : Nat)
    (hdone : m.state = State.completed d)
    (hcomp : Board.Complete m.sudoku.board)
    (hagr : Board.Agrees m.sudoku.board m.solution)
    (hsol : m.solution sq = some sol) :
    ∃ m', update env t (.putNumber sq num) m = some m' ∧
      m'.sudoku.board = m.sudoku.board ∧
      m'.state = m.state ∧
      m'.sq_selected = m.sq_selected ∧
      m'.solution = m.solution ∧
      (num ≠ sol → m'.sq_missed = some sq ∧ m'.miss_count = m.miss_count + 1) ∧
      (num = sol → m'.sq_missed = none ∧ m'.miss_count = m.miss_count) := by
  have hsq : m.sudoku.board sq = some sol := by
    obtain ⟨n, hn⟩ := Option.isSome_iff_exists.mp (hcomp sq)
    have h2 := hagr sq n hn
    rw [hsol] at h2
    injection h2 with h3
    rw [hn, h3]
  by_cases hnum : num = sol
  · subst hnum
    have hboard := Sudoku.put_board_of_eq m.sudoku sq num hsq
    simp only [update, Model.solution_at, hsol]
    rw [if_neg (fun h => h rfl)]
    split
    · rw [hdone]
      exact ⟨_, rfl, hboard, rfl, rfl, rfl, fun h => absurd rfl h, fun _ => ⟨rfl, rfl⟩⟩
    · exact ⟨_, rfl, hboard, rfl, rfl, rfl, fun h => absurd rfl h, fun _ => ⟨rfl, rfl⟩⟩
  · simp only [update, Model.solution_at, hsol]
    rw [if_pos hnum]
    exact ⟨_, rfl, rfl, rfl, rfl, rfl, fun _ => ⟨rfl, rfl⟩, fun h => absurd h hnum⟩

/-- Witness for the amended C5: a wrong placement at (0,0) on the
completed fixture session. -/
theorem putNumber_on_completed_frame_witness :
    ∃ m', update env0 0 (.putNumber ⟨0, 0⟩ 1) mDone = some m' ∧
      m'.sudoku.board = mDone.sudoku.board ∧
      m'.state = mDone.state ∧
      m'.sq_selected = mDone.sq_selected ∧
      m'.solution = mDone.solution ∧
      ((1 : Number) ≠ 0 → m'.sq_missed = some ⟨0, 0⟩ ∧ m'.miss_count = mDone.miss_count + 1) ∧
      ((1 : Number) = 0 → m'.sq_missed = none ∧ m'.miss_count = mDone.miss_count) :=
  putNumber_on_completed_frame env0 0 mDone ⟨0, 0⟩ 1 0 7 rfl solGrid_complete
    (Board.agrees_refl solGrid) (by decide)

/-- Boolean equality on optional digits coincides with decidable
propositional equality. -/
theorem beq_option_number (x y : Option Number) : (x == y) = decide (x = y) := by
  by_cases h : x = y <;> simp [h]

/-- C7: for every digit and every session, the digit-palette completed
flag of `view_number` is true iff the number of squares on the working
board holding that digit equals 9. -/
theorem number_completed_iff_count_nine (m : Model) (num : Number) :
    is_completed m num = true ↔
      (Finset.univ.filter fun sq => m.sudoku.board sq = some num).card = 9 := by
  unfold is_completed
  rw [beq_iff_eq]
  have huniv : (Finset.univ (α := Square)).val = (Square.all : Multiset Square) := rfl
  rw [Finset.card_def, Finset.filter_val, huniv, Multiset.filter_coe, Multiset.coe_card]
  have hfun : (fun sq => m.sudoku.board sq == some num)
      = fun sq => decide (m.sudoku.board sq = some num) := by
    funext sq
    exact beq_option_number _ _
  rw [hfun]

/-- C8: the per-square highlight classification of `view_board_square`:
with a selected square `s`, `is_neighbor` holds iff the square is not `s`
and shares the column, row or block with `s`; `is_selected_number` holds
iff the square's digit is filled and equals the filled digit at `s`; with
no selection both flags are false. -/
theorem highlight_classification (m : Model) (col row : Fin 9) :
    (∀ s : Square, m.sq_selected = some s →
        ((is_neighbor m col row = true ↔
            (Square.mk col row ≠ s ∧
              (col = s.col ∨ row = s.row ∨ Square.block ⟨col, row⟩ = s.block))) ∧
          (is_selected_number m col row = true ↔
            ∃ n, m.sudoku.board ⟨col, row⟩ = some n ∧ m.sudoku.board s = some n))) ∧
      (m.sq_selected = none →
        is_neighbor m col row = false ∧ is_selected_number m col row = false) := by
  constructor
  · intro s hs
    constructor
    · unfold is_neighbor is_selected
      rw [hs]
      simp only [Bool.and_eq_true, Bool.not_eq_true', Bool.or_eq_true, beq_iff_eq,
        beq_eq_false_iff_ne, Option.some.injEq]
      constructor
      · rintro ⟨h1, h2⟩
        exact ⟨fun h => h1 (congrArg some h.symm), or_assoc.mp h2⟩
      · rintro ⟨h1, h2⟩
        exact ⟨fun h => h1 (Option.some.inj h).symm, or_assoc.mpr h2⟩
    · unfold is_selected_number
      rw [hs]
      simp only [Bool.and_eq_true, Option.isSome_iff_exists, beq_iff_eq]
      constructor
      · rintro ⟨⟨n, hn⟩, heq⟩
        exact ⟨n, hn, by rw [← heq, hn]⟩
      · rintro ⟨n, hn, hsn⟩
        exact ⟨⟨n, hn⟩, by rw [hn, hsn]⟩
  · intro h
    unfold is_neighbor is_selected_number is_selected
    rw [h]
    exact ⟨rfl, rfl⟩

/-- Witness for C8 on the completed fixture session, whose selection is
square (4,4), classifying square (4,0). -/
theorem highlight_classification_witness :
    ((is_neighbor mDone 4 0 = true ↔
        (Square.mk 4 0 ≠ ⟨4, 4⟩ ∧
          ((4 : Fin 9) = Square.col ⟨4, 4⟩ ∨ (0 : Fin 9) = Square.row ⟨4, 4⟩ ∨
            Square.block ⟨4, 0⟩ = Square.block ⟨4, 4⟩))) ∧
      (is_selected_number mDone 4 0 = true ↔
        ∃ n, mDone.sudoku.board ⟨4, 0⟩ = some n ∧ mDone.sudoku.board ⟨4, 4⟩ = some n)) :=
  (highlight_classification mDone 4 0).1 ⟨4, 4⟩ rfl

end SudokuApp
